import Mathlib

/-!
# Hall-booking backend: shallow embedding and verification

This file embeds the booking admission and lifecycle engine of the
venue-booking backend (`src/server.js` together with the booking schema)
into Lean 4 and proves properties of the embedded operations.

Modelled routes:
  * `normalizeDateString`               (server.js, helper)
  * `POST /api/bookings`                (submitBooking)
  * `GET  /api/admin/bookings`          (adminGetBookings, retention sweep)
  * `POST /api/admin/bookings/:id/approve` (approveBooking)
  * `POST /api/admin/bookings/:id/reject`  (rejectBooking)
  * `POST /api/razorpay/webhook`        (webhookHandler)
  * `bookingSchema.pre("save")` hook    (preSaveHook)

External JavaScript semantics (Date parsing, the local calendar, HMAC,
mail and payment-gateway outcomes) are collected in an `Env` structure
over which the theorems are generic; a concrete executable environment
with a real proleptic-Gregorian calendar is provided for witnesses and
counterexamples.
-/

namespace HallBooking

/-- Booking status enumeration from the schema
(`enum: ["pending", "approved", "rejected"]`, default `pending`). -/
inductive Status where
  | pending
  | approved
  | rejected
deriving DecidableEq, Repr

/-- Payment status enumeration from the schema
(`enum: ["unpaid", "paid", "failed", "refunded"]`, default `unpaid`). -/
inductive PayStatus where
  | unpaid
  | paid
  | failed
  | refunded
deriving DecidableEq, Repr

/-- A stored `date` field value.  The server's comments and queries treat the
field as possibly a `"YYYY-MM-DD"` string or a Date instant (milliseconds
since the epoch), and run one query for each representation. -/
inductive DateVal where
  | str (s : String)
  | inst (ms : Int)
deriving DecidableEq, Repr

/-- A JavaScript value supplied as a date: a string, a Date object
(holding an instant), or null/undefined. -/
inductive JSVal where
  | str (s : String)
  | date (ms : Int)
  | nullish
deriving DecidableEq, Repr

/-- A Booking document (booking schema). Timestamps are instants
(milliseconds); `none` means the field is unset. -/
structure Booking where
  id : String
  name : String
  email : String
  phone : String
  pkg : String
  guests : Int
  date : DateVal
  time : String
  specialRequests : Option String
  status : Status
  isPaid : Bool
  paymentStatus : PayStatus
  paymentId : Option String
  orderId : Option String
  amount : Int
  approvedAt : Option Int
  rejectedAt : Option Int
  paidAt : Option Int
deriving DecidableEq, Repr

/-- The body of `POST /api/bookings`. -/
structure Payload where
  name : String
  email : String
  phone : String
  pkg : String
  guests : Int
  date : JSVal
  time : String
  specialRequests : Option String
deriving DecidableEq, Repr

/-- A Razorpay payment link as far as the server inspects it:
the amount in paise, the correlation id stored in `notes.bookingId`,
and the short URL mailed to the customer. -/
structure PaymentLink where
  amountPaise : Int
  notesBookingId : String
  shortUrl : String
deriving DecidableEq, Repr

/-- The payment entity of a webhook body
(`req.body.payload.payment.entity`): the provider payment id and the
optional correlation id `notes?.bookingId`. -/
structure PaymentEntity where
  id : String
  bookingId : Option String
deriving DecidableEq, Repr

/-- A parsed webhook request body: the event name and, when present, the
payment entity reached through `payload.payment.entity`. -/
structure WebhookReq where
  event : String
  payment : Option PaymentEntity
deriving DecidableEq, Repr

/-- Socket.IO broadcasts the booking routes can emit. -/
inductive Emit where
  | pastBookingsDeleted
  | paymentUpdate (bookingId : String)
deriving DecidableEq, Repr

/-- HTTP responses of the modelled routes, carrying the JSON payload
fields the claims inspect. -/
inductive Resp where
  | created201 (booking : Booking) (bookedDates : List String)
  | okBookings (bookings : List Booking)
  | okApprove (booking : Booking) (link : PaymentLink)
  | okReject (bookingId : String)
  | okStatus
  | badRequest400
  | conflict409
  | notFound404
  | serverError500
deriving DecidableEq, Repr

/-- Result of running one route handler: the HTTP response, the booking
collection afterwards, and the broadcasts emitted. -/
structure OpResult where
  resp : Resp
  store : List Booking
  emits : List Emit
deriving DecidableEq, Repr

/-- External JavaScript/runtime semantics the handlers depend on. -/
structure Env where
  /-- `new Date(s)` on a non-canonical string: the parsed instant, or
  `none` for an invalid date. -/
  parseStr : String → Option Int
  /-- The instant of `new Date(s ++ "T00:00:00.000Z")` for a canonical
  day string `s` (UTC start of that day); the end of the day used by the
  range query is this value plus 86399999 ms. -/
  dayStart : String → Int
  /-- The local calendar parts of an instant:
  (`getFullYear()`, `getMonth() + 1`, `getDate()`). -/
  localCivil : Int → Int × Nat × Nat
  /-- `crypto.createHmac("sha256", secret).update(body).digest("hex")`. -/
  hmacHex : String → String → String
  /-- Whether `transporter.sendMail` succeeds. -/
  sendMailOk : Bool
  /-- Whether `razorpay.paymentLink.create` succeeds. -/
  createLinkOk : Bool
  /-- The `short_url` of a created payment link. -/
  linkUrl : String

/-- The regular expression test from `normalizeDateString`:
`/^\d{4}-\d{2}-\d{2}$/`. -/
def isCanonicalDateString (s : String) : Bool :=
  match s.data with
  | [a, b, c, d, e, f, g, h, i, j] =>
      a.isDigit && b.isDigit && c.isDigit && d.isDigit &&
      e = '-' && f.isDigit && g.isDigit && h = '-' && i.isDigit && j.isDigit
  | _ => false

/-- `String(n).padStart(2, "0")`. -/
def pad2 (n : Nat) : String :=
  if n < 10 then "0" ++ toString n else toString n

/-- Build the local `YYYY-MM-DD` string of an instant, as
`normalizeDateString` does (year unpadded, month and day padded to 2). -/
def formatLocal (env : Env) (ms : Int) : String :=
  let ymd := env.localCivil ms
  toString ymd.1 ++ "-" ++ pad2 ymd.2.1 ++ "-" ++ pad2 ymd.2.2

/-- `normalizeDateString` from server.js: falsy inputs give `null`;
a string already matching `YYYY-MM-DD` passes through; anything else is
parsed with `new Date` and formatted as the local calendar day, or gives
`null` when unparseable. -/
def normalizeDateString (env : Env) (d : JSVal) : Option String :=
  match d with
  | .nullish => none
  | .str s =>
      if s = "" then none
      else if isCanonicalDateString s then some s
      else
        match env.parseStr s with
        | none => none
        | some ms => some (formatLocal env ms)
  | .date ms => some (formatLocal env ms)

/-- `Booking.findById(id)` / `findOne({_id: id})`: the first document with
the given id. -/
def findById (store : List Booking) (i : String) : Option Booking :=
  store.find? (fun b => b.id = i)

/-- `findOneAndUpdate`-style replacement of the first document with the
given id. -/
def updateById : List Booking → String → Booking → List Booking
  | [], _, _ => []
  | b :: rest, i, nb =>
      if b.id = i then nb :: rest else b :: updateById rest i nb

/-- `booking.deleteOne()`: remove the (first) document with the given id. -/
def removeById : List Booking → String → List Booking
  | [], _ => []
  | b :: rest, i =>
      if b.id = i then rest else b :: removeById rest i

/-- `normalizeDateString(b.date)` applied to a stored date value. -/
def normStored (env : Env) (d : DateVal) : Option String :=
  match d with
  | .str s => normalizeDateString env (.str s)
  | .inst ms => normalizeDateString env (.date ms)

/-- Insert into a `≤`-sorted list of strings. -/
def insertSorted (s : String) : List String → List String
  | [] => [s]
  | t :: rest => if s ≤ t then s :: t :: rest else t :: insertSorted s rest

/-- JavaScript `.sort()` on the list of normalized date strings. -/
def sortStrings : List String → List String
  | [] => []
  | s :: rest => insertSorted s (sortStrings rest)

/-- `allBookings.map(b => normalizeDateString(b.date)).filter(Boolean).sort()`. -/
def bookedDatesOf (env : Env) (store : List Booking) : List String :=
  sortStrings (store.filterMap (fun b => normStored env b.date))

/-- First clause of `bookingSchema.pre("save")`: when the status path was
modified, stamp `approvedAt` or `rejectedAt` according to the new
status. -/
def stampStatus (statusModified : Bool) (b : Booking) (now : Int) :
    Booking :=
  if statusModified then
    if b.status = .approved then { b with approvedAt := some now }
    else if b.status = .rejected then { b with rejectedAt := some now }
    else b
  else b

/-- Second clause of `bookingSchema.pre("save")`: when the paymentStatus
path was modified to `paid`, stamp `paidAt`. -/
def stampPaid (payStatusModified : Bool) (b : Booking) (now : Int) :
    Booking :=
  if payStatusModified && b.paymentStatus = .paid then
    { b with paidAt := some now }
  else b

/-- `bookingSchema.pre("save")`: both clauses in order. -/
def preSaveHook (statusModified payStatusModified : Bool) (b : Booking)
    (now : Int) : Booking :=
  stampPaid payStatusModified (stampStatus statusModified b now) now

/-- Mongoose cast of the submitted `date` to the stored field value: the
server leaves the value "as sent" (string stays string, Date stays an
instant); a nullish date fails the schema's `required` validation. -/
def castDate : JSVal → Option DateVal
  | .str s => some (.str s)
  | .date ms => some (.inst ms)
  | .nullish => none

/-- Schema validation of `new Booking(req.body)`: all required string
fields nonempty after trimming (modelled as nonemptiness), `guests ≥ 1`,
and a castable date. -/
def validPayload (p : Payload) : Bool :=
  p.name ≠ "" && p.email ≠ "" && p.phone ≠ "" && p.pkg ≠ "" &&
  p.time ≠ "" && (1 : Int) ≤ p.guests && (castDate p.date).isSome

/-- Build the new Booking document saved by `POST /api/bookings`: schema
defaults (`pending`, unpaid, amount 0, no timestamps), then the pre-save
hook with every path modified (a new document); the defaults make the
hook a no-op. -/
def newBooking (p : Payload) (d : DateVal) (freshId : String) (now : Int) :
    Booking :=
  preSaveHook true true
    { id := freshId, name := p.name, email := p.email, phone := p.phone
      pkg := p.pkg, guests := p.guests, date := d, time := p.time
      specialRequests := p.specialRequests, status := .pending
      isPaid := false, paymentStatus := .unpaid, paymentId := none
      orderId := none, amount := 0, approvedAt := none, rejectedAt := none
      paidAt := none } now

/-- The pre-insert conflict check of `POST /api/bookings`: a stored date
matches the canonical day `nd` when it equals the canonical string
(`findOne({date: normalized})`) or is an instant inside the closed range
`[new Date(nd+"T00:00:00.000Z"), new Date(nd+"T23:59:59.999Z")]`. -/
def matchesDay (env : Env) (nd : String) (d : DateVal) : Bool :=
  match d with
  | .str s => s = nd
  | .inst ms => env.dayStart nd ≤ ms && ms ≤ env.dayStart nd + 86399999

/-- `POST /api/bookings`: normalize the date (400 when invalid), run the
two duplicate queries (409 on a hit), validate and save the new booking
(500 on a validation error, 409 on a duplicate-key error from the unique
date index, i.e. an existing document with the exact same date value),
send the best-effort admin email (failure caught), and answer 201 with
the booking and the refreshed sorted booked dates. -/
def submitBooking (env : Env) (store : List Booking) (p : Payload)
    (freshId : String) (now : Int) : OpResult :=
  match normalizeDateString env p.date with
  | none => ⟨.badRequest400, store, []⟩
  | some nd =>
      if store.any (fun b => matchesDay env nd b.date) then
        ⟨.conflict409, store, []⟩
      else
        match castDate p.date with
        | none => ⟨.serverError500, store, []⟩
        | some d =>
            if validPayload p then
              if store.any (fun b => b.date = d) then
                ⟨.conflict409, store, []⟩
              else
                let b := newBooking p d freshId now
                let store' := store ++ [b]
                ⟨.created201 b (bookedDatesOf env store'), store', []⟩
            else ⟨.serverError500, store, []⟩

/-- The `deleteMany` filter of the retention sweep:
`{date: {$lt: new Date(todayNormalized + "T00:00:00.000Z")}}` — a `$lt`
Date query matches instant-typed values strictly before the cutoff and
no string-typed values. -/
def isPastBooking (cutoff : Int) (b : Booking) : Bool :=
  match b.date with
  | .inst ms => ms < cutoff
  | .str _ => false

/-- `GET /api/admin/bookings`: compute today's canonical day, delete every
booking matching the sweep filter, emit one `pastBookingsDeleted`
broadcast when any were deleted, and return the remaining bookings. -/
def adminGetBookings (env : Env) (store : List Booking) (now : Int) :
    OpResult :=
  let todayN := formatLocal env now
  let cutoff := env.dayStart todayN
  let store' := store.filter (fun b => !(isPastBooking cutoff b))
  let deletedCount := (store.filter (isPastBooking cutoff)).length
  ⟨.okBookings store', store',
    if 0 < deletedCount then [.pastBookingsDeleted] else []⟩

/-- `POST /api/admin/bookings/:id/approve`: 400 on a missing id or a
missing/non-positive amount; 404 when the id resolves to no booking; else
set status to `approved` and save (the hook stamps `approvedAt` when the
status actually changed), create the payment link carrying the booking id
in `notes.bookingId` (a gateway failure reaches the catch-all 500 with
the status change already persisted), send the payer the link by email
when an address exists (a mail failure also reaches the catch-all 500),
and answer 200 with the booking and the link. -/
def approveBooking (env : Env) (store : List Booking) (i : String)
    (amount : Option Int) (now : Int) : OpResult :=
  if i = "" then ⟨.badRequest400, store, []⟩
  else
    match amount with
    | none => ⟨.badRequest400, store, []⟩
    | some a =>
        if a ≤ 0 then ⟨.badRequest400, store, []⟩
        else
          match findById store i with
          | none => ⟨.notFound404, store, []⟩
          | some b =>
              let statusModified := b.status ≠ .approved
              let b' := preSaveHook statusModified false
                { b with status := .approved } now
              let store' := updateById store i b'
              if !env.createLinkOk then ⟨.serverError500, store', []⟩
              else
                let link : PaymentLink :=
                  ⟨a * 100, b.id, env.linkUrl⟩
                if b'.email ≠ "" && !env.sendMailOk then
                  ⟨.serverError500, store', []⟩
                else ⟨.okApprove b' link, store', []⟩

/-- `POST /api/admin/bookings/:id/reject`: 404 when the id resolves to no
booking; else delete the record, send the rejection email when an address
exists (a mail failure reaches the catch-all 500 with the record already
deleted), and answer 200 with the booking id. -/
def rejectBooking (env : Env) (store : List Booking) (i : String) :
    OpResult :=
  match findById store i with
  | none => ⟨.notFound404, store, []⟩
  | some b =>
      let store' := removeById store i
      if b.email ≠ "" && !env.sendMailOk then ⟨.serverError500, store', []⟩
      else ⟨.okReject i, store', []⟩

/-- `POST /api/razorpay/webhook`: compare the `x-razorpay-signature`
header against the HMAC-SHA256 hex digest of the serialized body (400 on
a mismatch, before anything else); on `payment.captured`, read
`payload.payment.entity` (a missing entity throws and reaches the
catch-all 500) and `notes?.bookingId`, and `findOneAndUpdate` the booking
to `isPaid: true` with the provider payment id — no save hook runs —
broadcasting `paymentUpdate` when a booking was found; finally answer
`200 {status:"ok"}`.  When `notes?.bookingId` is `undefined`, mongoose
strips the undefined `_id` key from the filter, making
`findOneAndUpdate({_id: undefined}, ...)` equivalent to
`findOneAndUpdate({}, ...)`: the first booking in the collection is
updated (and broadcast), and only an empty collection yields no match. -/
def webhookHandler (env : Env) (secret : String) (store : List Booking)
    (signature : Option String) (bodyStr : String) (req : WebhookReq) :
    OpResult :=
  let expected := env.hmacHex secret bodyStr
  if signature ≠ some expected then ⟨.badRequest400, store, []⟩
  else if req.event = "payment.captured" then
    match req.payment with
    | none => ⟨.serverError500, store, []⟩
    | some pay =>
        match pay.bookingId with
        | none =>
            match store with
            | [] => ⟨.okStatus, store, []⟩
            | b :: rest =>
                let b' := { b with isPaid := true, paymentId := some pay.id }
                ⟨.okStatus, b' :: rest, [.paymentUpdate b.id]⟩
        | some bid =>
            match findById store bid with
            | none => ⟨.okStatus, store, []⟩
            | some b =>
                let b' := { b with isPaid := true, paymentId := some pay.id }
                ⟨.okStatus, updateById store bid b', [.paymentUpdate bid]⟩
  else ⟨.okStatus, store, []⟩

/-! ## A concrete executable environment

A real proleptic-Gregorian calendar (days-from-civil and its inverse),
used to build concrete environments for witnesses and counterexamples.
The local calendar is UTC shifted by a fixed offset in milliseconds. -/

/-- Days since 1970-01-01 of a civil date (proleptic Gregorian). -/
def daysFromCivil (y : Int) (m d : Nat) : Int :=
  let y' : Int := if m ≤ 2 then y - 1 else y
  let era : Int := (if 0 ≤ y' then y' else y' - 399).fdiv 400
  let yoe : Int := y' - era * 400
  let mp : Int := (Int.ofNat m + 9).fmod 12
  let doy : Int := (153 * mp + 2).fdiv 5 + Int.ofNat d - 1
  let doe : Int := yoe * 365 + yoe.fdiv 4 - yoe.fdiv 100 + doy
  era * 146097 + doe - 719468

/-- Civil date (proleptic Gregorian) of a number of days since 1970-01-01. -/
def civilFromDays (z : Int) : Int × Nat × Nat :=
  let z' := z + 719468
  let era : Int := (if 0 ≤ z' then z' else z' - 146096).fdiv 146097
  let doe : Int := z' - era * 146097
  let yoe : Int := (doe - doe.fdiv 1460 + doe.fdiv 36524 - doe.fdiv 146096).fdiv 365
  let y : Int := yoe + era * 400
  let doy : Int := doe - (365 * yoe + yoe.fdiv 4 - yoe.fdiv 100)
  let mp : Int := (5 * doy + 2).fdiv 153
  let d : Int := doy - (153 * mp + 2).fdiv 5 + 1
  let m : Int := if mp < 10 then mp + 3 else mp - 9
  (if m ≤ 2 then y + 1 else y, m.toNat, d.toNat)

/-- Milliseconds in a day. -/
def msPerDay : Int := 86400000

/-- Digit value of a character, when it is a digit. -/
def digitVal (c : Char) : Nat := c.toNat - 48

/-- Parse a canonical `YYYY-MM-DD` string into its numeric parts. -/
def parseCanonical (s : String) : Option (Int × Nat × Nat) :=
  match s.data with
  | [a, b, c, d, e, f, g, h, i, j] =>
      if a.isDigit && b.isDigit && c.isDigit && d.isDigit && e = '-' &&
         f.isDigit && g.isDigit && h = '-' && i.isDigit && j.isDigit then
        some (Int.ofNat (((digitVal a * 10 + digitVal b) * 10 + digitVal c) * 10
                 + digitVal d),
              digitVal f * 10 + digitVal g,
              digitVal i * 10 + digitVal j)
      else none
  | _ => none

/-- Concrete environment: local calendar at a fixed UTC offset (ms),
ISO date-only strings parsed as UTC midnight (JavaScript semantics),
other strings unparseable, a stand-in HMAC, and configurable mail /
gateway outcomes. -/
def mkEnv (offsetMs : Int) (mailOk linkOk : Bool) : Env where
  parseStr := fun s =>
    match parseCanonical s with
    | some ymd => some (daysFromCivil ymd.1 ymd.2.1 ymd.2.2 * msPerDay)
    | none => none
  dayStart := fun s =>
    match parseCanonical s with
    | some ymd => daysFromCivil ymd.1 ymd.2.1 ymd.2.2 * msPerDay
    | none => 0
  localCivil := fun ms => civilFromDays ((ms + offsetMs).fdiv msPerDay)
  hmacHex := fun secret body => "hmac(" ++ secret ++ "," ++ body ++ ")"
  sendMailOk := mailOk
  createLinkOk := linkOk
  linkUrl := "https://rzp.io/l/test"

/-- UTC environment with all collaborators healthy. -/
def envUTC : Env := mkEnv 0 true true

/-- India Standard Time environment (UTC+05:30) with all collaborators
healthy. -/
def envIST : Env := mkEnv 19800000 true true

example : daysFromCivil 1970 1 1 = 0 := by decide
example : civilFromDays 0 = (1970, 1, 1) := by decide
example : daysFromCivil 2025 3 11 = 20158 := by decide
example : civilFromDays 20158 = (2025, 3, 11) := by decide
example : daysFromCivil 2000 2 29 = 11016 := by decide
example : civilFromDays 11016 = (2000, 2, 29) := by decide
example : formatLocal envUTC (20158 * msPerDay) = "2025-03-11" := by decide
example : formatLocal envIST (20158 * msPerDay - 1) = "2025-03-11" := by decide
example : formatLocal envUTC (20158 * msPerDay - 1) = "2025-03-10" := by decide
example :
    normalizeDateString envUTC (.str "2025-03-11") = some "2025-03-11" := by
  decide

/-! ## Concrete fixtures for witnesses and counterexamples -/

/-- The instant 2025-03-11T00:00:00.000Z. -/
def ms20250311 : Int := 20158 * msPerDay

/-- A pending booking for 2025-03-10 (date stored as the canonical
string). -/
def bkBase : Booking :=
  { id := "B1", name := "Asha", email := "asha@example.com"
    phone := "9999", pkg := "Gold", guests := 120
    date := .str "2025-03-10", time := "Evening", specialRequests := none
    status := .pending, isPaid := false, paymentStatus := .unpaid
    paymentId := none, orderId := none, amount := 0
    approvedAt := none, rejectedAt := none, paidAt := none }

/-- A submission payload for 2025-03-10. -/
def pBase : Payload :=
  { name := "Ravi", email := "ravi@example.com", phone := "8888"
    pkg := "Silver", guests := 80, date := .str "2025-03-10"
    time := "Morning", specialRequests := none }

/-- A well-formed `payment.captured` webhook body correlated to
booking `B1`. -/
def reqCaptured : WebhookReq :=
  { event := "payment.captured", payment := some ⟨"pay_1", some "B1"⟩ }

/-- A `payment.captured` webhook body whose notes carry no booking id. -/
def reqCapturedNoId : WebhookReq :=
  { event := "payment.captured", payment := some ⟨"pay_9", none⟩ }

/-- UTC environment whose mailer fails (gateway healthy). -/
def envMailFail : Env := mkEnv 0 false true

/-- A booking stored as the instant one millisecond before
2025-03-11T00:00:00Z; its local (IST) calendar day is 2025-03-11. -/
def bkToday : Booking :=
  { bkBase with id := "B2", date := .inst (ms20250311 - 1) }

/-! ## Reachable stores

The booking collection starts empty and is mutated only by the five
modelled routes (spec §5: all mutation goes through the Admission
Controller or the Lifecycle State Machine). -/

/-- Stores reachable from the empty collection through the modelled
routes. -/
inductive Reachable : List Booking → Prop where
  | init : Reachable []
  | step_submit (env : Env) (p : Payload) (fid : String) (now : Int)
      {s : List Booking} : Reachable s →
      Reachable (submitBooking env s p fid now).store
  | step_adminList (env : Env) (now : Int) {s : List Booking} :
      Reachable s → Reachable (adminGetBookings env s now).store
  | step_approve (env : Env) (i : String) (amount : Option Int) (now : Int)
      {s : List Booking} : Reachable s →
      Reachable (approveBooking env s i amount now).store
  | step_reject (env : Env) (i : String) {s : List Booking} :
      Reachable s → Reachable (rejectBooking env s i).store
  | step_webhook (env : Env) (secret : String) (signature : Option String)
      (bodyStr : String) (req : WebhookReq) {s : List Booking} :
      Reachable s →
      Reachable (webhookHandler env secret s signature bodyStr req).store

/-! ## Helper lemmas -/

theorem findById_mem {s : List Booking} {i : String} {b : Booking}
    (h : findById s i = some b) : b ∈ s :=
  List.mem_of_find?_eq_some h

theorem findById_id {s : List Booking} {i : String} {b : Booking}
    (h : findById s i = some b) : b.id = i := by
  have h2 := List.find?_some h
  simpa using h2

theorem mem_updateById {s : List Booking} {i : String} {nb b : Booking}
    (h : b ∈ updateById s i nb) : b ∈ s ∨ b = nb := by
  induction s with
  | nil => simp [updateById] at h
  | cons hd tl ih =>
      by_cases hid : hd.id = i
      · simp only [updateById, if_pos hid, List.mem_cons] at h
        rcases h with h | h
        · exact Or.inr h
        · exact Or.inl (List.mem_cons_of_mem _ h)
      · simp only [updateById, if_neg hid, List.mem_cons] at h
        rcases h with h | h
        · exact Or.inl (h ▸ List.mem_cons_self _ _)
        · rcases ih h with h' | h'
          · exact Or.inl (List.mem_cons_of_mem _ h')
          · exact Or.inr h'

theorem mem_removeById {s : List Booking} {i : String} {b : Booking}
    (h : b ∈ removeById s i) : b ∈ s := by
  induction s with
  | nil => simp [removeById] at h
  | cons hd tl ih =>
      by_cases hid : hd.id = i
      · simp only [removeById, if_pos hid] at h
        exact List.mem_cons_of_mem _ h
      · simp only [removeById, if_neg hid, List.mem_cons] at h
        rcases h with h | h
        · exact h ▸ List.mem_cons_self _ _
        · exact List.mem_cons_of_mem _ (ih h)

theorem findById_cons_pos {hd : Booking} {tl : List Booking} {i : String}
    (h : hd.id = i) : findById (hd :: tl) i = some hd := by
  unfold findById
  rw [List.find?_cons]
  simp [h]

theorem findById_cons_neg {hd : Booking} {tl : List Booking} {i : String}
    (h : ¬hd.id = i) : findById (hd :: tl) i = findById tl i := by
  unfold findById
  rw [List.find?_cons]
  simp [h]

theorem findById_updateById {s : List Booking} {i : String} {nb : Booking}
    (hsome : (findById s i).isSome = true) (hid : nb.id = i) :
    findById (updateById s i nb) i = some nb := by
  induction s with
  | nil => simp [findById] at hsome
  | cons hd tl ih =>
      by_cases h : hd.id = i
      · rw [updateById, if_pos h, findById_cons_pos hid]
      · rw [findById_cons_neg h] at hsome
        rw [updateById, if_neg h, findById_cons_neg h]
        exact ih hsome

theorem updateById_self {s : List Booking} {i : String} {nb : Booking}
    (h : findById s i = some nb) : updateById s i nb = s := by
  induction s with
  | nil => simp [findById] at h
  | cons hd tl ih =>
      by_cases hid : hd.id = i
      · have heq : hd = nb := by
          have h2 := h
          rw [findById_cons_pos hid] at h2
          exact Option.some.inj h2
        rw [updateById, if_pos hid, heq]
      · rw [findById_cons_neg hid] at h
        rw [updateById, if_neg hid, ih h]

theorem findById_removeById {s : List Booking} {i : String}
    (hnd : (s.map Booking.id).Nodup) :
    findById (removeById s i) i = none := by
  induction s with
  | nil => simp [removeById, findById]
  | cons hd tl ih =>
      have hnd2 : (∀ x ∈ tl, ¬x.id = hd.id) ∧
          (List.map Booking.id tl).Nodup := by simpa using hnd
      by_cases hid : hd.id = i
      · simp only [removeById, if_pos hid]
        apply List.find?_eq_none.mpr
        intro b hb
        simp only [decide_eq_true_eq]
        intro hbid
        exact hnd2.1 b hb (by rw [hbid, hid])
      · simp only [removeById, if_neg hid]
        rw [findById_cons_neg hid]
        exact ih hnd2.2

theorem stampStatus_proj (sm : Bool) (b : Booking) (now : Int) :
    (stampStatus sm b now).id = b.id ∧
    (stampStatus sm b now).status = b.status ∧
    (stampStatus sm b now).date = b.date ∧
    (stampStatus sm b now).email = b.email ∧
    (stampStatus sm b now).isPaid = b.isPaid ∧
    (stampStatus sm b now).paymentStatus = b.paymentStatus ∧
    (stampStatus sm b now).paidAt = b.paidAt := by
  unfold stampStatus
  split
  · split
    · exact ⟨rfl, rfl, rfl, rfl, rfl, rfl, rfl⟩
    · split
      · exact ⟨rfl, rfl, rfl, rfl, rfl, rfl, rfl⟩
      · exact ⟨rfl, rfl, rfl, rfl, rfl, rfl, rfl⟩
  · exact ⟨rfl, rfl, rfl, rfl, rfl, rfl, rfl⟩

theorem stampStatus_rejectedAt (sm : Bool) (b : Booking) (now : Int)
    (h : b.status ≠ .rejected) :
    (stampStatus sm b now).rejectedAt = b.rejectedAt := by
  unfold stampStatus
  rcases sm
  · rfl
  · by_cases ha : b.status = .approved
    · simp [ha]
    · simp [ha, h]

theorem stampPaid_proj (pm : Bool) (b : Booking) (now : Int) :
    (stampPaid pm b now).id = b.id ∧
    (stampPaid pm b now).status = b.status ∧
    (stampPaid pm b now).date = b.date ∧
    (stampPaid pm b now).email = b.email ∧
    (stampPaid pm b now).rejectedAt = b.rejectedAt ∧
    (stampPaid pm b now).approvedAt = b.approvedAt := by
  unfold stampPaid
  split
  · exact ⟨rfl, rfl, rfl, rfl, rfl, rfl⟩
  · exact ⟨rfl, rfl, rfl, rfl, rfl, rfl⟩

theorem preSaveHook_status (sm pm : Bool) (b : Booking) (now : Int) :
    (preSaveHook sm pm b now).status = b.status := by
  unfold preSaveHook
  rw [(stampPaid_proj pm (stampStatus sm b now) now).2.1,
    (stampStatus_proj sm b now).2.1]

theorem preSaveHook_id (sm pm : Bool) (b : Booking) (now : Int) :
    (preSaveHook sm pm b now).id = b.id := by
  unfold preSaveHook
  rw [(stampPaid_proj pm (stampStatus sm b now) now).1,
    (stampStatus_proj sm b now).1]

theorem preSaveHook_date (sm pm : Bool) (b : Booking) (now : Int) :
    (preSaveHook sm pm b now).date = b.date := by
  unfold preSaveHook
  rw [(stampPaid_proj pm (stampStatus sm b now) now).2.2.1,
    (stampStatus_proj sm b now).2.2.1]

theorem preSaveHook_rejectedAt (sm pm : Bool) (b : Booking) (now : Int)
    (h : b.status ≠ .rejected) :
    (preSaveHook sm pm b now).rejectedAt = b.rejectedAt := by
  unfold preSaveHook
  rw [(stampPaid_proj pm (stampStatus sm b now) now).2.2.2.2.1,
    stampStatus_rejectedAt sm b now h]

theorem preSaveHook_approve (b : Booking) (now : Int) :
    preSaveHook true false { b with status := .approved } now =
      { b with status := .approved, approvedAt := some now } := by
  simp [preSaveHook, stampStatus, stampPaid]

theorem newBooking_eq (p : Payload) (d : DateVal) (fid : String) (now : Int) :
    newBooking p d fid now =
      { id := fid, name := p.name, email := p.email, phone := p.phone
        pkg := p.pkg, guests := p.guests, date := d, time := p.time
        specialRequests := p.specialRequests, status := .pending
        isPaid := false, paymentStatus := .unpaid, paymentId := none
        orderId := none, amount := 0, approvedAt := none
        rejectedAt := none, paidAt := none } := by
  simp [newBooking, preSaveHook, stampStatus, stampPaid]

/-! ## Claim theorems -/

/-- Claim C8: the date normalizer is idempotent — every input that
normalizes to a valid canonical day string re-normalizes to itself — and
every input already in canonical `YYYY-MM-DD` form is returned unchanged
(the regex branch passes it through without re-parsing). -/
theorem normalizeDateString_idempotent (env : Env) :
    (∀ x s, normalizeDateString env x = some s →
        isCanonicalDateString s = true →
        normalizeDateString env (.str s) = some s) ∧
    (∀ t, isCanonicalDateString t = true →
        normalizeDateString env (.str t) = some t) := by
  constructor
  · intro x s _ hc
    have hne : ¬ s = "" := by
      intro he
      rw [he] at hc
      exact absurd hc (by decide)
    simp [normalizeDateString, hne, hc]
  · intro t hc
    have hne : ¬ t = "" := by
      intro he
      rw [he] at hc
      exact absurd hc (by decide)
    simp [normalizeDateString, hne, hc]

/-- Witness for C8 at a concrete input: a Date-object input normalizing
to `2025-03-11`, which then re-normalizes to itself. -/
theorem normalizeDateString_idempotent_witness :
    normalizeDateString envUTC (.date ms20250311) = some "2025-03-11" ∧
    normalizeDateString envUTC (.str "2025-03-11") = some "2025-03-11" :=
  ⟨by decide,
    (normalizeDateString_idempotent envUTC).1 (.date ms20250311) "2025-03-11"
      (by decide) (by decide)⟩

/-- Claim C2: a webhook request whose signature header does not match the
HMAC-SHA256 digest of the body is answered 400, with the booking store
unchanged and no broadcast emitted. -/
theorem webhook_invalid_signature (env : Env) (secret : String)
    (store : List Booking) (signature : Option String) (bodyStr : String)
    (req : WebhookReq)
    (h : signature ≠ some (env.hmacHex secret bodyStr)) :
    webhookHandler env secret store signature bodyStr req =
      ⟨.badRequest400, store, []⟩ := by
  simp [webhookHandler, h]

/-- Witness for C2: a concrete mismatched signature is rejected with 400
and the store is untouched. -/
theorem webhook_invalid_signature_witness :
    webhookHandler envUTC "whsec" [bkBase] (some "bad") "body" reqCaptured =
      ⟨.badRequest400, [bkBase], []⟩ :=
  webhook_invalid_signature envUTC "whsec" [bkBase] (some "bad") "body"
    reqCaptured (by decide)

/-- Counterexample to C4 as stated: a validly signed `payment.captured`
event whose notes carry no booking id is acknowledged with ok, yet it
mutates the store — mongoose strips the undefined `_id` key from the
`findOneAndUpdate` filter, so the first booking in the collection is
marked paid and a broadcast is emitted — contradicting "when the id is
absent ... no booking state changes". -/
theorem webhook_absent_id_updates_first_cex :
    webhookHandler envUTC "whsec" [bkBase]
        (some (envUTC.hmacHex "whsec" "body")) "body" reqCapturedNoId =
      ⟨.okStatus,
        [{ bkBase with isPaid := true, paymentId := some "pay_9" }],
        [.paymentUpdate "B1"]⟩ := by
  decide

/-- Claim C4 (amended): once the signature is valid, the webhook always
answers `200 {status:"ok"}` — for non-captured events, and for captured
events (whose body carries a payment entity) whatever the correlation
outcome; an unknown booking id leaves the store unchanged; an absent
booking id leaves the store unchanged only when the collection is empty —
otherwise the filter collapses to `{}` and the first booking in the
collection is marked paid. -/
theorem webhook_valid_signature_ack (env : Env) (secret : String)
    (store : List Booking) (bodyStr : String) (req : WebhookReq) :
    (¬ req.event = "payment.captured" →
        webhookHandler env secret store (some (env.hmacHex secret bodyStr))
          bodyStr req = ⟨.okStatus, store, []⟩) ∧
    (∀ pay, req.payment = some pay →
        (webhookHandler env secret store (some (env.hmacHex secret bodyStr))
          bodyStr req).resp = .okStatus) ∧
    (∀ pay, req.payment = some pay → pay.bookingId = none →
        req.event = "payment.captured" →
        (store = [] →
          webhookHandler env secret store
            (some (env.hmacHex secret bodyStr)) bodyStr req =
            ⟨.okStatus, store, []⟩) ∧
        (∀ b0 rest, store = b0 :: rest →
          webhookHandler env secret store
            (some (env.hmacHex secret bodyStr)) bodyStr req =
            ⟨.okStatus,
              { b0 with isPaid := true, paymentId := some pay.id } :: rest,
              [.paymentUpdate b0.id]⟩)) ∧
    (∀ pay bid, req.payment = some pay → pay.bookingId = some bid →
        findById store bid = none →
        webhookHandler env secret store (some (env.hmacHex secret bodyStr))
          bodyStr req = ⟨.okStatus, store, []⟩) := by
  refine ⟨?_, ?_, ?_, ?_⟩
  · intro hev
    simp [webhookHandler, hev]
  · intro pay hpay
    by_cases hev : req.event = "payment.captured"
    · rcases hbid : pay.bookingId with _ | bid
      · rcases store with _ | ⟨b0, rest⟩
        · simp [webhookHandler, hev, hpay, hbid]
        · simp [webhookHandler, hev, hpay, hbid]
      · rcases hfind : findById store bid with _ | b
        · simp [webhookHandler, hev, hpay, hbid, hfind]
        · simp [webhookHandler, hev, hpay, hbid, hfind]
    · simp [webhookHandler, hev]
  · intro pay hpay hbid hev
    constructor
    · intro hst
      subst hst
      simp [webhookHandler, hev, hpay, hbid]
    · intro b0 rest hst
      subst hst
      simp [webhookHandler, hev, hpay, hbid]
  · intro pay bid hpay hbid hfind
    by_cases hev : req.event = "payment.captured"
    · simp [webhookHandler, hev, hpay, hbid, hfind]
    · simp [webhookHandler, hev]

/-- Witness for C4 (amended): a validly signed captured event with an
unknown id is acknowledged with no state change, and one with an absent
id marks the first booking of a concrete store paid. -/
theorem webhook_valid_signature_ack_witness :
    webhookHandler envUTC "whsec" []
        (some (envUTC.hmacHex "whsec" "body")) "body" reqCaptured =
      ⟨.okStatus, [], []⟩ ∧
    webhookHandler envUTC "whsec" [bkBase]
        (some (envUTC.hmacHex "whsec" "body")) "body" reqCapturedNoId =
      ⟨.okStatus,
        [{ bkBase with isPaid := true, paymentId := some "pay_9" }],
        [.paymentUpdate bkBase.id]⟩ :=
  ⟨(webhook_valid_signature_ack envUTC "whsec" [] "body" reqCaptured).2.2.2
      ⟨"pay_1", some "B1"⟩ "B1" (by decide) (by decide) (by decide),
    ((webhook_valid_signature_ack envUTC "whsec" [bkBase] "body"
        reqCapturedNoId).2.2.1 ⟨"pay_9", none⟩ (by decide) (by decide)
        (by decide)).2 bkBase [] rfl⟩

/-- Claim C6: rejection deletes the booking record entirely — after a
rejection the store no longer holds the id (a subsequent lookup or
re-rejection answers NotFound, given the store's ids are duplicate-free)
— and rejecting an unknown id answers 404 with the store unchanged. -/
theorem reject_deletes (env : Env) (store : List Booking) (i : String) :
    (findById store i = none →
        rejectBooking env store i = ⟨.notFound404, store, []⟩) ∧
    (∀ b, findById store i = some b →
        (rejectBooking env store i).store = removeById store i ∧
        ((store.map Booking.id).Nodup →
            findById (rejectBooking env store i).store i = none ∧
            (rejectBooking env (rejectBooking env store i).store i).resp =
              .notFound404)) := by
  constructor
  · intro h
    simp [rejectBooking, h]
  · intro b hb
    have hst : (rejectBooking env store i).store = removeById store i := by
      simp only [rejectBooking, hb]
      split <;> rfl
    refine ⟨hst, ?_⟩
    intro hnd
    have hf : findById (rejectBooking env store i).store i = none := by
      rw [hst]
      exact findById_removeById hnd
    have h2 : ∀ s2, findById s2 i = none →
        (rejectBooking env s2 i).resp = .notFound404 := by
      intro s2 h
      simp [rejectBooking, h]
    exact ⟨hf, h2 _ hf⟩

/-- Witness for C6: rejecting the only booking leaves an empty store in
which the id resolves to nothing, and rejecting in an empty store
answers 404. -/
theorem reject_deletes_witness :
    findById (rejectBooking envUTC [bkBase] "B1").store "B1" = none ∧
    rejectBooking envUTC [] "B1" = ⟨.notFound404, [], []⟩ :=
  ⟨(((reject_deletes envUTC [bkBase] "B1").2 bkBase (by decide)).2
      (by decide)).1,
    (reject_deletes envUTC [] "B1").1 (by decide)⟩

/-- Claim C5: approve requires an existing booking and a positive amount;
on success it sets status to approved, stamps approved-at, creates a
payment link keyed by the booking id in its notes, and answers 200 with
the booking and the link (given the gateway and mailer succeed); a
missing/non-positive amount answers 400 and an unknown id answers 404,
both leaving the store unchanged. -/
theorem approve_spec (env : Env) (store : List Booking) (i : String)
    (amount : Option Int) (now : Int) :
    ((amount = none ∨ ∃ a, amount = some a ∧ a ≤ 0) →
        approveBooking env store i amount now = ⟨.badRequest400, store, []⟩) ∧
    (∀ a, amount = some a → 0 < a → ¬ i = "" → findById store i = none →
        approveBooking env store i amount now = ⟨.notFound404, store, []⟩) ∧
    (∀ a b, amount = some a → 0 < a → ¬ i = "" →
        findById store i = some b → ¬ b.status = .approved →
        env.createLinkOk = true → env.sendMailOk = true →
        approveBooking env store i amount now =
          ⟨.okApprove { b with status := .approved, approvedAt := some now }
              ⟨a * 100, b.id, env.linkUrl⟩,
            updateById store i
              { b with status := .approved, approvedAt := some now },
            []⟩) := by
  refine ⟨?_, ?_, ?_⟩
  · intro h
    by_cases hi : i = ""
    · simp [approveBooking, hi]
    · rcases h with h | ⟨a, ha, hle⟩
      · simp [approveBooking, hi, h]
      · simp [approveBooking, hi, ha, hle]
  · intro a ha hpos hi hf
    have hle : ¬ a ≤ 0 := not_le.mpr hpos
    simp [approveBooking, hi, ha, hle, hf]
  · intro a b ha hpos hi hf hne hlink hmail
    have hle : ¬ a ≤ 0 := not_le.mpr hpos
    simp [approveBooking, hi, ha, hle, hf, hne, preSaveHook_approve,
      hlink, hmail]

/-- Witness for C5: approving a concrete pending booking with amount
50000 yields 200, status approved, approved-at stamped, and a link
carrying the booking id. -/
theorem approve_spec_witness :
    approveBooking envUTC [bkBase] "B1" (some 50000) 0 =
      ⟨.okApprove { bkBase with status := .approved, approvedAt := some 0 }
          ⟨50000 * 100, bkBase.id, envUTC.linkUrl⟩,
        updateById [bkBase] "B1"
          { bkBase with status := .approved, approvedAt := some 0 },
        []⟩ :=
  (approve_spec envUTC [bkBase] "B1" (some 50000) 0).2.2 50000 bkBase rfl
    (by decide) (by decide) (by decide) (by decide) rfl rfl

/-- Counterexample to C3 as stated: a validly signed `payment.captured`
event for an existing booking is processed, yet the stored booking's
paid-at remains unset (the `findOneAndUpdate` bypasses the save hook and
never touches paymentStatus), contradicting "stamps paid-at exactly
once". -/
theorem webhook_capture_no_paidAt_cex :
    (webhookHandler envUTC "whsec" [bkBase]
        (some (envUTC.hmacHex "whsec" "body")) "body" reqCaptured).store =
      [{ bkBase with isPaid := true, paymentId := some "pay_1" }] ∧
    ({ bkBase with isPaid := true, paymentId := some "pay_1" } :
        Booking).paidAt = none ∧
    ({ bkBase with isPaid := true, paymentId := some "pay_1" } :
        Booking).paymentStatus = .unpaid := by
  refine ⟨?_, rfl, rfl⟩
  decide

/-- Claim C3 (amended): a validly signed `payment.captured` event whose
correlated id resolves to an existing booking sets `isPaid=true` and
records the provider payment id — it does not stamp paid-at — and a
second delivery of the same event leaves the store unchanged (idempotent
confirmation). -/
theorem webhook_capture_idempotent (env : Env) (secret : String)
    (store : List Booking) (bodyStr : String) (req : WebhookReq)
    (pay : PaymentEntity) (bid : String) (b : Booking)
    (hev : req.event = "payment.captured")
    (hpay : req.payment = some pay)
    (hbid : pay.bookingId = some bid)
    (hfind : findById store bid = some b) :
    webhookHandler env secret store (some (env.hmacHex secret bodyStr))
        bodyStr req =
      ⟨.okStatus,
        updateById store bid { b with isPaid := true, paymentId := some pay.id },
        [.paymentUpdate bid]⟩ ∧
    ({ b with isPaid := true, paymentId := some pay.id } :
        Booking).paidAt = b.paidAt ∧
    ({ b with isPaid := true, paymentId := some pay.id } :
        Booking).status = b.status ∧
    webhookHandler env secret
        (updateById store bid
          { b with isPaid := true, paymentId := some pay.id })
        (some (env.hmacHex secret bodyStr)) bodyStr req =
      ⟨.okStatus,
        updateById store bid { b with isPaid := true, paymentId := some pay.id },
        [.paymentUpdate bid]⟩ := by
  have hfind2 : findById
      (updateById store bid { b with isPaid := true, paymentId := some pay.id })
      bid = some { b with isPaid := true, paymentId := some pay.id } := by
    apply findById_updateById
    · rw [hfind]
      rfl
    · have hid : b.id = bid := findById_id hfind
      exact hid
  have hupd2 : updateById
      (updateById store bid { b with isPaid := true, paymentId := some pay.id })
      bid { b with isPaid := true, paymentId := some pay.id } =
      updateById store bid { b with isPaid := true, paymentId := some pay.id } :=
    updateById_self hfind2
  refine ⟨?_, rfl, rfl, ?_⟩
  · simp [webhookHandler, hev, hpay, hbid, hfind]
  · simp only [webhookHandler, hev, hpay, hbid, hfind2]
    simp [hupd2]

/-- Witness for C3 (amended): a concrete captured event marks the only
booking paid once, and a repeat delivery leaves the store identical. -/
theorem webhook_capture_idempotent_witness :
    webhookHandler envUTC "whsec" [bkBase]
        (some (envUTC.hmacHex "whsec" "body")) "body" reqCaptured =
      ⟨.okStatus,
        updateById [bkBase] "B1"
          { bkBase with isPaid := true, paymentId := some "pay_1" },
        [.paymentUpdate "B1"]⟩ ∧
    webhookHandler envUTC "whsec"
        (updateById [bkBase] "B1"
          { bkBase with isPaid := true, paymentId := some "pay_1" })
        (some (envUTC.hmacHex "whsec" "body")) "body" reqCaptured =
      ⟨.okStatus,
        updateById [bkBase] "B1"
          { bkBase with isPaid := true, paymentId := some "pay_1" },
        [.paymentUpdate "B1"]⟩ :=
  ⟨(webhook_capture_idempotent envUTC "whsec" [bkBase] "body" reqCaptured
      ⟨"pay_1", some "B1"⟩ "B1" bkBase rfl rfl rfl (by decide)).1,
    (webhook_capture_idempotent envUTC "whsec" [bkBase] "body" reqCaptured
      ⟨"pay_1", some "B1"⟩ "B1" bkBase rfl rfl rfl (by decide)).2.2.2⟩

/-- Counterexample to C9 as stated: with a failing mailer, approving a
concrete pending booking persists the approval (status approved,
approved-at stamped) yet the request answers 500 — the notification
failure is surfaced to the caller, not swallowed. -/
theorem approve_mailfail_cex :
    approveBooking envMailFail [bkBase] "B1" (some 50000) 0 =
      ⟨.serverError500,
        [{ bkBase with status := .approved, approvedAt := some 0 }], []⟩ := by
  decide

/-- Claim C9 (amended): only the public submission wraps its notification
email in its own try/catch — its outcome is independent of mailer
health; approve and reject let a mailer failure propagate to the
catch-all 500 response, although the state change (approval persisted /
record deleted) is not rolled back. -/
theorem notification_failure_effects (env : Env) (store : List Booking)
    (p : Payload) (fid : String) (now : Int) (i : String) :
    (submitBooking { env with sendMailOk := false } store p fid now =
        submitBooking { env with sendMailOk := true } store p fid now) ∧
    (∀ (a : Int) (b : Booking), 0 < a → ¬ i = "" →
        findById store i = some b → ¬ b.status = .approved →
        ¬ b.email = "" → env.createLinkOk = true →
        approveBooking { env with sendMailOk := false } store i (some a)
            now =
          ⟨.serverError500,
            updateById store i
              { b with status := .approved, approvedAt := some now },
            []⟩) ∧
    (∀ b, findById store i = some b → ¬ b.email = "" →
        rejectBooking { env with sendMailOk := false } store i =
          ⟨.serverError500, removeById store i, []⟩) := by
  refine ⟨rfl, ?_, ?_⟩
  · intro a b hpos hi hf hne hmail hlink
    have hle : ¬ a ≤ 0 := not_le.mpr hpos
    simp [approveBooking, hi, hle, hf, hne, preSaveHook_approve, hlink,
      hmail]
  · intro b hf hmail
    simp [rejectBooking, hf, hmail]

/-- Witness for C9 (amended) at concrete inputs: submission is untouched
by mailer health, while rejecting with a failing mailer answers 500 with
the record already deleted. -/
theorem notification_failure_effects_witness :
    (submitBooking { envUTC with sendMailOk := false } [] pBase "B1" 0 =
        submitBooking { envUTC with sendMailOk := true } [] pBase "B1" 0) ∧
    rejectBooking { envUTC with sendMailOk := false } [bkBase] "B1" =
      ⟨.serverError500, removeById [bkBase] "B1", []⟩ :=
  ⟨(notification_failure_effects envUTC [] pBase "B1" 0 "B1").1,
    (notification_failure_effects envUTC [bkBase] pBase "B1" 0 "B1").2.2
      bkBase (by decide) (by decide)⟩

/-- Counterexample to C7 as stated: in an IST (UTC+05:30) environment, at
an instant whose canonical day is 2025-03-11, a booking whose canonical
date is also 2025-03-11 (not strictly earlier than today) is nonetheless
deleted by the sweep, because the `$lt` cutoff is the UTC start of the
day, not the local one. -/
theorem sweep_deletes_today_cex :
    formatLocal envIST ms20250311 = "2025-03-11" ∧
    normStored envIST bkToday.date = some "2025-03-11" ∧
    (adminGetBookings envIST [bkToday] ms20250311).store = [] ∧
    (adminGetBookings envIST [bkToday] ms20250311).emits =
      [.pastBookingsDeleted] := by
  decide

/-- Claim C7 (amended): the sweep, run at the start of the admin
booking-list fetch, deletes exactly the bookings whose stored date is an
instant strictly before the UTC start of today's canonical day (bookings
dated today or later by that instant comparison, and all string-stored
dates, are kept), responds with the remaining list, and emits exactly
one broadcast when at least one booking was deleted and none
otherwise. -/
theorem sweep_characterization (env : Env) (store : List Booking)
    (now : Int) :
    ((adminGetBookings env store now).resp =
        .okBookings (adminGetBookings env store now).store) ∧
    (∀ b, b ∈ (adminGetBookings env store now).store ↔
        b ∈ store ∧ ∀ ms, b.date = .inst ms →
          ¬ ms < env.dayStart (formatLocal env now)) ∧
    ((adminGetBookings env store now).emits = [.pastBookingsDeleted] ↔
        ∃ b ∈ store, ∃ ms, b.date = .inst ms ∧
          ms < env.dayStart (formatLocal env now)) ∧
    ((adminGetBookings env store now).emits = [] ↔
        ¬ ∃ b ∈ store, ∃ ms, b.date = .inst ms ∧
          ms < env.dayStart (formatLocal env now)) := by
  have hmatch : ∀ (b : Booking),
      isPastBooking (env.dayStart (formatLocal env now)) b = true ↔
        ∃ ms, b.date = .inst ms ∧
          ms < env.dayStart (formatLocal env now) := by
    intro b
    rcases hb : b.date with s | ms
    · simp [isPastBooking, hb]
    · simp [isPastBooking, hb]
  have hPiff : 0 < (store.filter
        (isPastBooking (env.dayStart (formatLocal env now)))).length ↔
      ∃ b ∈ store, ∃ ms, b.date = .inst ms ∧
        ms < env.dayStart (formatLocal env now) := by
    rw [List.length_pos_iff_exists_mem]
    constructor
    · rintro ⟨b, hb⟩
      rw [List.mem_filter] at hb
      exact ⟨b, hb.1, (hmatch b).mp hb.2⟩
    · rintro ⟨b, hb, hex⟩
      exact ⟨b, List.mem_filter.mpr ⟨hb, (hmatch b).mpr hex⟩⟩
  refine ⟨rfl, ?_, ?_, ?_⟩
  · intro b
    show b ∈ store.filter
        (fun b => !(isPastBooking (env.dayStart (formatLocal env now)) b)) ↔ _
    rw [List.mem_filter]
    constructor
    · rintro ⟨hb, hnot⟩
      refine ⟨hb, ?_⟩
      intro ms hms hlt
      have hp : isPastBooking (env.dayStart (formatLocal env now)) b =
          true := (hmatch b).mpr ⟨ms, hms, hlt⟩
      rw [hp] at hnot
      exact absurd hnot (by decide)
    · rintro ⟨hb, hall⟩
      refine ⟨hb, ?_⟩
      cases hp : isPastBooking (env.dayStart (formatLocal env now)) b
      · rfl
      · rcases (hmatch b).mp hp with ⟨ms, hms, hlt⟩
        exact absurd hlt (hall ms hms)
  · show (if 0 < (store.filter
        (isPastBooking (env.dayStart (formatLocal env now)))).length then
          [Emit.pastBookingsDeleted] else []) = [Emit.pastBookingsDeleted] ↔ _
    by_cases hl : 0 < (store.filter
        (isPastBooking (env.dayStart (formatLocal env now)))).length
    · rw [if_pos hl]
      exact iff_of_true rfl (hPiff.mp hl)
    · rw [if_neg hl]
      exact iff_of_false (by decide) (fun hp => hl (hPiff.mpr hp))
  · show (if 0 < (store.filter
        (isPastBooking (env.dayStart (formatLocal env now)))).length then
          [Emit.pastBookingsDeleted] else []) = [] ↔ _
    by_cases hl : 0 < (store.filter
        (isPastBooking (env.dayStart (formatLocal env now)))).length
    · rw [if_pos hl]
      exact iff_of_false (by decide) (fun hnp => hnp (hPiff.mp hl))
    · rw [if_neg hl]
      exact iff_of_true rfl (fun hp => hl (hPiff.mpr hp))

/-- Witness for C7 (amended): a string-dated booking survives a concrete
sweep and no broadcast is emitted. -/
theorem sweep_characterization_witness :
    bkBase ∈ (adminGetBookings envUTC [bkBase] ms20250311).store ∧
    (adminGetBookings envUTC [bkBase] ms20250311).emits = [] := by
  constructor
  · refine ((sweep_characterization envUTC [bkBase] ms20250311).2.1
      bkBase).mpr ⟨by decide, ?_⟩
    intro ms hms
    simp [bkBase] at hms
  · refine (sweep_characterization envUTC [bkBase] ms20250311).2.2.2.mpr ?_
    rintro ⟨b, hb, ms, hms, _⟩
    rw [List.mem_singleton] at hb
    subst hb
    simp [bkBase] at hms

/-- Claim C1: a submission whose canonical day is already occupied
(matched by canonical-string equality or by the closed UTC instant range)
is refused with 409 and creates no booking; a persist-time duplicate-key
failure (an exact stored-date duplicate that slipped past the pre-check)
is likewise reported as 409, not 500; consequently, after one submission
succeeds, no second submission carrying the same date value can ever be
created. -/
theorem submit_conflict_guarantee (env : Env) (store : List Booking)
    (p : Payload) (fid : String) (now : Int) (nd : String)
    (hnorm : normalizeDateString env p.date = some nd) :
    ((∃ b ∈ store, matchesDay env nd b.date = true) →
        submitBooking env store p fid now = ⟨.conflict409, store, []⟩) ∧
    (∀ d, castDate p.date = some d → validPayload p = true →
        (∀ b ∈ store, matchesDay env nd b.date = false) →
        (∃ b ∈ store, b.date = d) →
        submitBooking env store p fid now = ⟨.conflict409, store, []⟩) ∧
    (∀ bk bd, (submitBooking env store p fid now).resp = .created201 bk bd →
        ∀ (p2 : Payload) (fid2 : String) (now2 : Int), p2.date = p.date →
        ∀ bk2 bd2,
          ¬ (submitBooking env (submitBooking env store p fid now).store
              p2 fid2 now2).resp = .created201 bk2 bd2) := by
  refine ⟨?_, ?_, ?_⟩
  · rintro ⟨b, hb, hm⟩
    have hany : store.any (fun b => matchesDay env nd b.date) = true :=
      List.any_eq_true.mpr ⟨b, hb, hm⟩
    simp [submitBooking, hnorm, hany]
  · rintro d hcast hvalid hnone ⟨b, hb, hdup⟩
    have hany : store.any (fun b => matchesDay env nd b.date) = false := by
      apply List.any_eq_false.mpr
      intro x hx
      rw [hnone x hx]
      decide
    have hdup2 : store.any (fun b0 => b0.date = d) = true :=
      List.any_eq_true.mpr ⟨b, hb, decide_eq_true hdup⟩
    simp [submitBooking, hnorm, hany, hcast, hvalid, hdup2]
  · intro bk bd hresp p2 fid2 now2 hp2 bk2 bd2 hcontra
    by_cases h1 : store.any (fun b => matchesDay env nd b.date) = true
    · have hr : (submitBooking env store p fid now).resp = .conflict409 := by
        simp [submitBooking, hnorm, h1]
      rw [hr] at hresp
      exact Resp.noConfusion hresp
    · have h1' : store.any (fun b => matchesDay env nd b.date) = false := by
        rwa [Bool.not_eq_true] at h1
      rcases hc : castDate p.date with _ | d
      · have hr : (submitBooking env store p fid now).resp =
            .serverError500 := by
          simp [submitBooking, hnorm, h1', hc]
        rw [hr] at hresp
        exact Resp.noConfusion hresp
      · by_cases hv : validPayload p = true
        · by_cases h2 : store.any (fun b0 => b0.date = d) = true
          · have hr : (submitBooking env store p fid now).resp =
                .conflict409 := by
              simp [submitBooking, hnorm, h1', hc, hv, h2]
            rw [hr] at hresp
            exact Resp.noConfusion hresp
          · have h2' : store.any (fun b0 => b0.date = d) = false := by
              rwa [Bool.not_eq_true] at h2
            have hstore : (submitBooking env store p fid now).store =
                store ++ [newBooking p d fid now] := by
              simp [submitBooking, hnorm, h1', hc, hv, h2']
            have hnorm2 : normalizeDateString env p2.date = some nd := by
              rw [hp2]
              exact hnorm
            have hc2 : castDate p2.date = some d := by
              rw [hp2]
              exact hc
            rw [hstore] at hcontra
            by_cases h3 : (store ++ [newBooking p d fid now]).any
                (fun b => matchesDay env nd b.date) = true
            · have hr : (submitBooking env
                  (store ++ [newBooking p d fid now]) p2 fid2 now2).resp =
                  .conflict409 := by
                simp [submitBooking, hnorm2, h3]
              rw [hr] at hcontra
              exact Resp.noConfusion hcontra
            · have h3' : (store ++ [newBooking p d fid now]).any
                  (fun b => matchesDay env nd b.date) = false := by
                rwa [Bool.not_eq_true] at h3
              by_cases hv2 : validPayload p2 = true
              · have h4 : (store ++ [newBooking p d fid now]).any
                    (fun b0 => b0.date = d) = true := by
                  apply List.any_eq_true.mpr
                  refine ⟨newBooking p d fid now, ?_, ?_⟩
                  · simp
                  · simp [newBooking_eq]
                have hr : (submitBooking env
                    (store ++ [newBooking p d fid now]) p2 fid2 now2).resp =
                    .conflict409 := by
                  simp [submitBooking, hnorm2, h3', hc2, hv2, h4]
                rw [hr] at hcontra
                exact Resp.noConfusion hcontra
              · have hv2' : validPayload p2 = false := by
                  rwa [Bool.not_eq_true] at hv2
                have hr : (submitBooking env
                    (store ++ [newBooking p d fid now]) p2 fid2 now2).resp =
                    .serverError500 := by
                  simp [submitBooking, hnorm2, h3', hc2, hv2']
                rw [hr] at hcontra
                exact Resp.noConfusion hcontra
        · have hv' : validPayload p = false := by
            rwa [Bool.not_eq_true] at hv
          have hr : (submitBooking env store p fid now).resp =
              .serverError500 := by
            simp [submitBooking, hnorm, h1', hc, hv']
          rw [hr] at hresp
          exact Resp.noConfusion hresp

/-- Witness for C1: a concrete second submission for an occupied
canonical day is refused with 409 (pre-check), and a concrete
instant-dated duplicate that escapes the pre-check is refused with 409 at
the persist step (duplicate key). -/
theorem submit_conflict_guarantee_witness :
    submitBooking envUTC [bkBase] pBase "B2" 0 =
      ⟨.conflict409, [bkBase], []⟩ ∧
    submitBooking envIST [bkToday]
        { pBase with date := .date (ms20250311 - 1) } "B3" 0 =
      ⟨.conflict409, [bkToday], []⟩ := by
  constructor
  · exact (submit_conflict_guarantee envUTC [bkBase] pBase "B2" 0
      "2025-03-10" (by decide)).1
      ⟨bkBase, List.mem_singleton.mpr rfl, by decide⟩
  · exact (submit_conflict_guarantee envIST [bkToday]
      { pBase with date := .date (ms20250311 - 1) } "B3" 0
      "2025-03-11" (by decide)).2.1 (.inst (ms20250311 - 1)) (by decide)
      (by decide) (by decide)
      ⟨bkToday, List.mem_singleton.mpr rfl, by decide⟩

theorem mem_submitBooking_store (env : Env) (p : Payload) (fid : String)
    (now : Int) {s : List Booking} {b : Booking}
    (hb : b ∈ (submitBooking env s p fid now).store) :
    b ∈ s ∨ ∃ d, b = newBooking p d fid now := by
  unfold submitBooking at hb
  rcases hn : normalizeDateString env p.date with _ | nd <;>
    simp only [hn] at hb
  · exact Or.inl hb
  · split at hb
    · exact Or.inl hb
    · rcases hc : castDate p.date with _ | d <;> simp only [hc] at hb
      · exact Or.inl hb
      · split at hb
        · split at hb
          · exact Or.inl hb
          · rcases List.mem_append.mp hb with h | h
            · exact Or.inl h
            · exact Or.inr ⟨d, List.mem_singleton.mp h⟩
        · exact Or.inl hb

theorem mem_approveBooking_store (env : Env) (i : String)
    (amount : Option Int) (now : Int) {s : List Booking} {b : Booking}
    (hb : b ∈ (approveBooking env s i amount now).store) :
    b ∈ s ∨ ∃ b0, b0 ∈ s ∧
      b = preSaveHook (decide (¬ b0.status = .approved)) false
            { b0 with status := .approved } now := by
  unfold approveBooking at hb
  split at hb
  · exact Or.inl hb
  · rcases hA : amount with _ | a <;> simp only [hA] at hb
    · exact Or.inl hb
    · split at hb
      · exact Or.inl hb
      · rcases hf : findById s i with _ | b0 <;> simp only [hf] at hb
        · exact Or.inl hb
        · have hmem :
              b ∈ updateById s i
                (preSaveHook (decide (¬ b0.status = .approved)) false
                  { b0 with status := .approved } now) := by
            split at hb
            · exact hb
            · split at hb
              · exact hb
              · exact hb
          rcases mem_updateById hmem with h | h
          · exact Or.inl h
          · exact Or.inr ⟨b0, findById_mem hf, h⟩

theorem mem_rejectBooking_store (env : Env) (i : String)
    {s : List Booking} {b : Booking}
    (hb : b ∈ (rejectBooking env s i).store) : b ∈ s := by
  unfold rejectBooking at hb
  rcases hf : findById s i with _ | b0 <;> simp only [hf] at hb
  · exact hb
  · split at hb
    · exact mem_removeById hb
    · exact mem_removeById hb

theorem mem_adminGetBookings_store (env : Env) (now : Int)
    {s : List Booking} {b : Booking}
    (hb : b ∈ (adminGetBookings env s now).store) : b ∈ s := by
  unfold adminGetBookings at hb
  exact (List.mem_filter.mp hb).1

theorem mem_webhookHandler_store (env : Env) (secret : String)
    (signature : Option String) (bodyStr : String) (req : WebhookReq)
    {s : List Booking} {b : Booking}
    (hb : b ∈ (webhookHandler env secret s signature bodyStr req).store) :
    b ∈ s ∨ ∃ b0 pid, b0 ∈ s ∧
      b = { b0 with isPaid := true, paymentId := some pid } := by
  by_cases hs1 : signature = some (env.hmacHex secret bodyStr)
  · by_cases hev : req.event = "payment.captured"
    · rcases hpay : req.payment with _ | pay
      · have hst : (webhookHandler env secret s signature bodyStr req).store
            = s := by
          simp [webhookHandler, hs1, hev, hpay]
        rw [hst] at hb
        exact Or.inl hb
      · rcases hbid : pay.bookingId with _ | bid
        · rcases s with _ | ⟨b0, rest⟩
          · have hst :
                (webhookHandler env secret [] signature bodyStr req).store =
                  ([] : List Booking) := by
              simp [webhookHandler, hs1, hev, hpay, hbid]
            rw [hst] at hb
            exact Or.inl hb
          · have hst :
                (webhookHandler env secret (b0 :: rest) signature bodyStr
                  req).store =
                  { b0 with isPaid := true, paymentId := some pay.id } ::
                    rest := by
              simp [webhookHandler, hs1, hev, hpay, hbid]
            rw [hst] at hb
            rcases List.mem_cons.mp hb with h | h
            · exact Or.inr ⟨b0, pay.id, List.mem_cons_self b0 rest, h⟩
            · exact Or.inl (List.mem_cons_of_mem _ h)
        · rcases hf : findById s bid with _ | b0
          · have hst :
                (webhookHandler env secret s signature bodyStr req).store =
                  s := by
              simp [webhookHandler, hs1, hev, hpay, hbid, hf]
            rw [hst] at hb
            exact Or.inl hb
          · have hst :
                (webhookHandler env secret s signature bodyStr req).store =
                  updateById s bid
                    { b0 with isPaid := true, paymentId := some pay.id } := by
              simp [webhookHandler, hs1, hev, hpay, hbid, hf]
            rw [hst] at hb
            rcases mem_updateById hb with h | h
            · exact Or.inl h
            · exact Or.inr ⟨b0, pay.id, findById_mem hf, h⟩
    · have hst : (webhookHandler env secret s signature bodyStr req).store
          = s := by
        simp [webhookHandler, hs1, hev]
      rw [hst] at hb
      exact Or.inl hb
  · have hst : (webhookHandler env secret s signature bodyStr req).store
        = s := by
      simp [webhookHandler, hs1]
    rw [hst] at hb
    exact Or.inl hb

/-- Claim C10: every booking in a store reachable through the modelled
routes has status pending or approved and an unset rejected-at —
rejection deletes the record instead of persisting a rejected status, so
the save hook's rejected branch never fires on a stored booking. -/
theorem reachable_no_rejected {s : List Booking} (h : Reachable s) :
    ∀ b ∈ s, (b.status = .pending ∨ b.status = .approved) ∧
      b.rejectedAt = none := by
  induction h with
  | init =>
      intro b hb
      exact absurd hb (List.not_mem_nil b)
  | step_submit env p fid now hs ih =>
      intro b hb
      rcases mem_submitBooking_store env p fid now hb with h1 | ⟨d, rfl⟩
      · exact ih b h1
      · rw [newBooking_eq]
        exact ⟨Or.inl rfl, rfl⟩
  | step_adminList env now hs ih =>
      intro b hb
      exact ih b (mem_adminGetBookings_store env now hb)
  | step_approve env i amount now hs ih =>
      intro b hb
      rcases mem_approveBooking_store env i amount now hb with
        h1 | ⟨b0, hb0, rfl⟩
      · exact ih b h1
      · constructor
        · right
          rw [preSaveHook_status]
        · rw [preSaveHook_rejectedAt]
          · exact (ih b0 hb0).2
          · intro hcon
            exact Status.noConfusion hcon
  | step_reject env i hs ih =>
      intro b hb
      exact ih b (mem_rejectBooking_store env i hb)
  | step_webhook env secret signature bodyStr req hs ih =>
      intro b hb
      rcases mem_webhookHandler_store env secret signature bodyStr req hb
        with h1 | ⟨b0, pid, hb0, rfl⟩
      · exact ih b h1
      · exact ih b0 hb0

/-- Witness for C10: the booking persisted by a concrete submission into
the empty store is pending with rejected-at unset. -/
theorem reachable_no_rejected_witness :
    ((newBooking pBase (DateVal.str "2025-03-10") "B1" 0).status =
        .pending ∨
      (newBooking pBase (DateVal.str "2025-03-10") "B1" 0).status =
        .approved) ∧
    (newBooking pBase (DateVal.str "2025-03-10") "B1" 0).rejectedAt =
      none :=
  reachable_no_rejected
    (Reachable.step_submit envUTC pBase "B1" 0 Reachable.init)
    (newBooking pBase (DateVal.str "2025-03-10") "B1" 0) (by decide)

end HallBooking
